import Mathlib

/-!
Verification development for the go-config value-coercion engine
(package internal/encode: SetField, isZero, SetTime) and the
environment-variable decoder (internal/encode/env: populate).

Go reflect values are shallowly embedded: a field's declared type is a
GoType, its runtime value a GoValue, and machine integers are Lean Int/Nat
with explicit two's-complement wraparound where reflect.Value.SetInt and
SetUint truncate.  Fallible operations return Except String, carrying the
error strings the Go code produces.
-/

namespace GoConfig

/-- Go reflect.Kind, restricted to the kinds the repository's code mentions. -/
inductive GoKind
  | string | bool
  | int | int8 | int16 | int32 | int64
  | uint | uint8 | uint16 | uint32 | uint64
  | float32 | float64
  | ptr | slice | array | struct
  | func | chan | iface | map | complex64 | complex128
deriving DecidableEq, Repr

/-- Go types occurring in the repository: scalar kinds, the two named time
types (time.Duration of kind int64, time.Time of kind struct), pointers,
slices, fixed arrays, plain user structs (field types only; none of the
modelled struct types implements encoding.TextUnmarshaler), and the kinds
the env decoder explicitly skips. -/
inductive GoType
  | string | bool
  | int | int8 | int16 | int32 | int64
  | duration
  | uint | uint8 | uint16 | uint32 | uint64
  | float32 | float64
  | ptr (elem : GoType)
  | slice (elem : GoType)
  | array (n : Nat) (elem : GoType)
  | structT (fields : List GoType)
  | time
  | func | chan | iface | mapT | complex64 | complex128
deriving Repr

/-- The components of a parsed time.Time value that time.Parse can set
from the numeric layout verbs the repository uses. -/
structure GoTime where
  year : Nat
  month : Nat
  day : Nat
  hour : Nat
  minute : Nat
  second : Nat
  nanosec : Nat
  offsetMin : Int
deriving DecidableEq, Repr

/-- Runtime value of a field.  unsupportedV stands for values of the kinds
(func, chan, interface, map, complex) that the walk never reads or writes. -/
inductive GoValue
  | str (s : String)
  | boolV (b : Bool)
  | intV (i : Int)
  | uintV (n : Nat)
  | floatV (q : Rat)
  | ptrV (p : Option GoValue)
  | sliceV (xs : List GoValue)
  | arrV (xs : List GoValue)
  | structV (fs : List GoValue)
  | timeV (t : GoTime)
  | unsupportedV
deriving Repr

/-- reflect.Value.Kind of each modelled type. -/
def kind : GoType → GoKind
  | .string => .string
  | .bool => .bool
  | .int => .int
  | .int8 => .int8
  | .int16 => .int16
  | .int32 => .int32
  | .int64 => .int64
  | .duration => .int64
  | .uint => .uint
  | .uint8 => .uint8
  | .uint16 => .uint16
  | .uint32 => .uint32
  | .uint64 => .uint64
  | .float32 => .float32
  | .float64 => .float64
  | .ptr _ => .ptr
  | .slice _ => .slice
  | .array _ _ => .array
  | .structT _ => .struct
  | .time => .struct
  | .func => .func
  | .chan => .chan
  | .iface => .iface
  | .mapT => .map
  | .complex64 => .complex64
  | .complex128 => .complex128

/-- reflect.Kind.String(), used in the unsupported-type error message. -/
def kindName : GoKind → String
  | .string => "string"
  | .bool => "bool"
  | .int => "int"
  | .int8 => "int8"
  | .int16 => "int16"
  | .int32 => "int32"
  | .int64 => "int64"
  | .uint => "uint"
  | .uint8 => "uint8"
  | .uint16 => "uint16"
  | .uint32 => "uint32"
  | .uint64 => "uint64"
  | .float32 => "float32"
  | .float64 => "float64"
  | .ptr => "ptr"
  | .slice => "slice"
  | .array => "array"
  | .struct => "struct"
  | .func => "func"
  | .chan => "chan"
  | .iface => "interface"
  | .map => "map"
  | .complex64 => "complex64"
  | .complex128 => "complex128"

/-- reflect.Type.String().  Only the presence of a '.' (isAlias) and the
exact strings "time.Duration" and "time.Time" matter to the source; for a
plain user struct Go prints the package-qualified name, abbreviated here. -/
def typeString : GoType → String
  | .string => "string"
  | .bool => "bool"
  | .int => "int"
  | .int8 => "int8"
  | .int16 => "int16"
  | .int32 => "int32"
  | .int64 => "int64"
  | .duration => "time.Duration"
  | .uint => "uint"
  | .uint8 => "uint8"
  | .uint16 => "uint16"
  | .uint32 => "uint32"
  | .uint64 => "uint64"
  | .float32 => "float32"
  | .float64 => "float64"
  | .ptr e => "*" ++ typeString e
  | .slice e => "[]" ++ typeString e
  | .array n e => "[" ++ toString n ++ "]" ++ typeString e
  | .structT _ => "struct"
  | .time => "time.Time"
  | .func => "func()"
  | .chan => "chan"
  | .iface => "interface"
  | .mapT => "map"
  | .complex64 => "complex64"
  | .complex128 => "complex128"

/-! String helpers modelling the Go standard-library functions the source
calls.  Only ASCII behavior is modelled; every input the repository feeds
them is ASCII. -/

/-- Character class tests on ASCII, as the byte comparisons in the Go code. -/
def isCapB (c : Char) : Bool := 'A' ≤ c && c ≤ 'Z'

def isLowB (c : Char) : Bool := 'a' ≤ c && c ≤ 'z'

def isNumB (c : Char) : Bool := '0' ≤ c && c ≤ '9'

/-- strings.ToLower (ASCII). -/
def goToLower (s : String) : String :=
  String.mk (s.data.map Char.toLower)

/-- strings.Trim: drop from both ends every character in the cutset. -/
def goTrim (s : String) (cutset : List Char) : String :=
  String.mk (((s.data.dropWhile (· ∈ cutset)).reverse.dropWhile (· ∈ cutset)).reverse)

/-- strings.TrimSpace, restricted to the ASCII space characters. -/
def goTrimSpace (s : String) : String :=
  goTrim s [' ', '\t', '\n', '\r']

/-- Helper for goSplitChar: accumulate the current token until the
separator is met. -/
def splitOnCharAux (sep : Char) : List Char → String → List String
  | [], acc => [acc]
  | c :: cs, acc =>
    if c = sep then acc :: splitOnCharAux sep cs ""
    else splitOnCharAux sep cs (acc.push c)

/-- strings.Split with a one-character separator (the source only splits
on a comma).  Like Go, splitting the empty string yields one empty token. -/
def goSplitChar (s : String) (sep : Char) : List String :=
  splitOnCharAux sep s.data ""

/-- Numeric value of a digit list; none when empty or a non-digit occurs. -/
def digitsToNat : List Char → Option Nat
  | [] => none
  | cs => cs.foldl (fun acc c =>
      match acc with
      | none => none
      | some n => if isNumB c then some (n * 10 + (c.toNat - '0'.toNat)) else none)
      (some 0)

/-- strconv.ParseInt(s, 10, 0) on a 64-bit platform: optional sign, base-10
digits, range check against the 64-bit signed range (bitSize 0 means the
platform int type, not the destination field's width). -/
def parseInt (s : String) : Except String Int :=
  let (neg, ds) :=
    match s.data with
    | '-' :: rest => (true, rest)
    | '+' :: rest => (false, rest)
    | rest => (false, rest)
  match digitsToNat ds with
  | none => .error ("strconv.ParseInt: parsing \"" ++ s ++ "\": invalid syntax")
  | some n =>
    let v : Int := if neg then -(n : Int) else (n : Int)
    if v < -(2 ^ 63) || (2 ^ 63 - 1 : Int) < v then
      .error ("strconv.ParseInt: parsing \"" ++ s ++ "\": value out of range")
    else .ok v

/-- strconv.ParseUint(s, 10, 0) on a 64-bit platform: no sign permitted,
base-10 digits, 64-bit unsigned range check. -/
def parseUint (s : String) : Except String Nat :=
  match digitsToNat s.data with
  | none => .error ("strconv.ParseUint: parsing \"" ++ s ++ "\": invalid syntax")
  | some n =>
    if (2 ^ 64 - 1 : Nat) < n then
      .error ("strconv.ParseUint: parsing \"" ++ s ++ "\": value out of range")
    else .ok n

/-- strconv.ParseFloat on the plain decimal forms (sign, digits, optional
fraction, optional decimal exponent), with the exact rational value; the
rounding to a binary float, and the Inf/NaN/hex spellings, are not
modelled (no claim exercises float parsing). -/
def parseGoFloat (s : String) : Except String Rat :=
  let err : Except String Rat :=
    .error ("strconv.ParseFloat: parsing \"" ++ s ++ "\": invalid syntax")
  let (neg, ds) :=
    match s.data with
    | '-' :: rest => (true, rest)
    | '+' :: rest => (false, rest)
    | rest => (false, rest)
  let intPart := ds.takeWhile isNumB
  let rest1 := ds.drop intPart.length
  let (fracPart, rest2) :=
    match rest1 with
    | '.' :: r => (r.takeWhile isNumB, r.drop (r.takeWhile isNumB).length)
    | r => ([], r)
  if intPart.isEmpty && fracPart.isEmpty then err
  else
    let mant : Nat := (digitsToNat (intPart ++ fracPart)).getD 0
    let base : Rat := (mant : Rat) / ((10 : Rat) ^ fracPart.length)
    match rest2 with
    | [] => .ok (if neg then -base else base)
    | e :: r =>
      if e = 'e' || e = 'E' then
        let (eneg, eds) :=
          match r with
          | '-' :: er => (true, er)
          | '+' :: er => (false, er)
          | er => (false, er)
        match digitsToNat eds with
        | none => err
        | some ex =>
          let scaled := if eneg then base / ((10 : Rat) ^ ex) else base * ((10 : Rat) ^ ex)
          .ok (if neg then -scaled else scaled)
      else err

/-- Two's-complement wraparound of an Int into a signed width of w bits,
as reflect.Value.SetInt performs when the destination kind is narrower
than the parsed int64. -/
def wrapInt (w : Nat) (x : Int) : Int :=
  (x + 2 ^ (w - 1)) % 2 ^ w - 2 ^ (w - 1)

/-! Model of time.ParseDuration, used by the time.Duration special case
of SetField. -/

/-- Unit table of time.ParseDuration, values in nanoseconds. -/
def durUnit : String → Option Int
  | "ns" => some 1
  | "us" => some 1000
  | "µs" => some 1000
  | "μs" => some 1000
  | "ms" => some 1000000
  | "s" => some 1000000000
  | "m" => some 60000000000
  | "h" => some 3600000000000
  | _ => none

/-- Consume leading decimal digits, returning their value, their count and
the remainder. -/
def spanDigitsAux : List Char → Nat → Nat → Nat × Nat × List Char
  | [], v, n => (v, n, [])
  | c :: cs, v, n =>
    if isNumB c then spanDigitsAux cs (v * 10 + (c.toNat - '0'.toNat)) (n + 1)
    else (v, n, c :: cs)

def spanDigits (cs : List Char) : Nat × Nat × List Char :=
  spanDigitsAux cs 0 0

/-- Chunk loop of time.ParseDuration: each round reads digits, an optional
fraction, and a unit name, and accumulates nanoseconds.  The fuel argument
(one more than the character count at the top call) only bounds the loop;
every successful round consumes at least one character, so the fuel never
runs out on the real control flow.  The fractional contribution is
computed exactly where Go rounds through float64 (equal on every input
without an over-long fraction); the mid-loop int64 overflow guards are
collapsed into one bound check per round. -/
def parseDurChunks (orig : String) : Nat → List Char → Int → Except String Int
  | 0, _, _ => .error ("time: invalid duration \"" ++ orig ++ "\"")
  | _ + 1, [], acc => .ok acc
  | fuel + 1, c :: rest, acc =>
    let bad : Except String Int := .error ("time: invalid duration \"" ++ orig ++ "\"")
    if !(c = '.' || isNumB c) then bad
    else
      let (v, npre, cs1) := spanDigits (c :: rest)
      let (f, nfrac, cs2, hadDot) :=
        match cs1 with
        | '.' :: r =>
          let (fv, fn, fr) := spanDigits r
          (fv, fn, fr, true)
        | r => (0, 0, r, false)
      let pre : Bool := npre != 0
      let post : Bool := hadDot && nfrac != 0
      if !pre && !post then bad
      else
        let ucs := cs2.takeWhile (fun u => !(u = '.' || isNumB u))
        if ucs.isEmpty then
          .error ("time: missing unit in duration \"" ++ orig ++ "\"")
        else
          match durUnit (String.mk ucs) with
          | none =>
            .error ("time: unknown unit \"" ++ String.mk ucs ++ "\" in duration \"" ++ orig ++ "\"")
          | some unit =>
            let add : Int :=
              (v : Int) * unit + (if nfrac != 0 then ((f : Int) * unit) / ((10 : Int) ^ nfrac) else 0)
            let acc' := acc + add
            if (2 ^ 63 - 1 : Int) < acc' then bad
            else parseDurChunks orig fuel (cs2.drop ucs.length) acc'

/-- time.ParseDuration: optional sign, the special literal "0", then a
sequence of number-unit chunks. -/
def parseDuration (s : String) : Except String Int :=
  let (neg, cs) :=
    match s.data with
    | '-' :: r => (true, r)
    | '+' :: r => (false, r)
    | r => (false, r)
  if cs = ['0'] then .ok 0
  else if cs = [] then .error ("time: invalid duration \"" ++ s ++ "\"")
  else
    match parseDurChunks s (cs.length + 1) cs 0 with
    | .error e => .error e
    | .ok d => .ok (if neg then -d else d)

/-! Model of time.Parse, restricted to the numeric layout verbs the
repository's layouts and tests exercise (2006, 01, 02, 15, 04, 05,
fractional seconds, Z07:00); any other layout character must match the
input literally.  The named-month/weekday/zone verbs of the symbolic
layouts are therefore matched literally, which no claim depends on. -/

/-- Defaults of time.Parse for components absent from the layout: year 0,
January 1, midnight, UTC. -/
def parseBaseTime : GoTime := ⟨0, 1, 1, 0, 0, 0, 0, 0⟩

/-- Read exactly n digits from the value, returning their numeric value
and the remainder. -/
def readDigits (n : Nat) (cs : List Char) : Option (Nat × List Char) :=
  let pre := cs.take n
  if pre.length == n && pre.all isNumB then
    some ((digitsToNat pre).getD 0, cs.drop n)
  else none

/-- Walk the layout, consuming the matching pieces of the value. -/
def timeParseAux : List Char → List Char → GoTime → Except String GoTime
  | [], [], t => .ok t
  | [], _ :: _, _ => .error "parsing time: extra text"
  | '2' :: '0' :: '0' :: '6' :: lr, vs, t =>
    match readDigits 4 vs with
    | some (y, vr) => timeParseAux lr vr { t with year := y }
    | none => .error "parsing time: cannot parse year"
  | '0' :: '1' :: lr, vs, t =>
    match readDigits 2 vs with
    | some (mo, vr) => timeParseAux lr vr { t with month := mo }
    | none => .error "parsing time: cannot parse month"
  | '0' :: '2' :: lr, vs, t =>
    match readDigits 2 vs with
    | some (d, vr) => timeParseAux lr vr { t with day := d }
    | none => .error "parsing time: cannot parse day"
  | '1' :: '5' :: lr, vs, t =>
    match readDigits 2 vs with
    | some (h, vr) => timeParseAux lr vr { t with hour := h }
    | none => .error "parsing time: cannot parse hour"
  | '0' :: '4' :: lr, vs, t =>
    match readDigits 2 vs with
    | some (mi, vr) => timeParseAux lr vr { t with minute := mi }
    | none => .error "parsing time: cannot parse minute"
  | '0' :: '5' :: lr, vs, t =>
    match readDigits 2 vs with
    | some (sec, vr) => timeParseAux lr vr { t with second := sec }
    | none => .error "parsing time: cannot parse second"
  | 'Z' :: '0' :: '7' :: ':' :: '0' :: '0' :: lr, vs, t =>
    match vs with
    | 'Z' :: vr => timeParseAux lr vr { t with offsetMin := 0 }
    | c :: vr =>
      if c = '+' || c = '-' then
        match readDigits 2 vr with
        | some (hh, vr1) =>
          match vr1 with
          | ':' :: vr2 =>
            match readDigits 2 vr2 with
            | some (mm, vr3) =>
              let off : Int := ((hh * 60 + mm : Nat) : Int)
              timeParseAux lr vr3 { t with offsetMin := if c = '-' then -off else off }
            | none => .error "parsing time: bad offset"
          | _ => .error "parsing time: bad offset"
        | none => .error "parsing time: bad offset"
      else .error "parsing time: bad offset"
    | [] => .error "parsing time: bad offset"
  | '.' :: lr, vs, t =>
    let nines := lr.takeWhile (· = '9')
    let zeros := lr.takeWhile (· = '0')
    if nines.length ≠ 0 then
      match vs with
      | '.' :: vr =>
        let fds := vr.takeWhile isNumB
        if fds.length = 0 ∨ 9 < fds.length then .error "parsing time: bad fractional second"
        else
          timeParseAux (lr.drop nines.length) (vr.drop fds.length)
            { t with nanosec := ((digitsToNat fds).getD 0) * 10 ^ (9 - fds.length) }
      | _ => timeParseAux (lr.drop nines.length) vs t
    else if zeros.length ≠ 0 then
      match vs with
      | '.' :: vr =>
        match readDigits zeros.length vr with
        | some (f, vr2) =>
          timeParseAux (lr.drop zeros.length) vr2
            { t with nanosec := f * 10 ^ (9 - zeros.length) }
        | none => .error "parsing time: bad fractional second"
      | _ => .error "parsing time: bad fractional second"
    else
      match vs with
      | '.' :: vr => timeParseAux lr vr t
      | _ => .error "parsing time: literal mismatch"
  | c :: lr, vs, t =>
    match vs with
    | c2 :: vr =>
      if c2 = c then timeParseAux lr vr t else .error "parsing time: literal mismatch"
    | [] => .error "parsing time: short value"
termination_by l _ _ => l.length
decreasing_by all_goals simp [List.length_drop] <;> omega

/-- time.Parse: walk the layout, then validate component ranges (the
per-month day-count refinement of Go's validation is not modelled). -/
def goTimeParse (layout : String) (value : String) : Except String GoTime :=
  match timeParseAux layout.data value.data parseBaseTime with
  | .error e => .error e
  | .ok t =>
    if t.month < 1 ∨ 12 < t.month ∨ t.day < 1 ∨ 31 < t.day ∨
       23 < t.hour ∨ 59 < t.minute ∨ 59 < t.second then
      .error ("parsing time \"" ++ value ++ "\": out of range")
    else .ok t

/-! Layout constants of the Go time package. -/

def goANSIC : String := "Mon Jan _2 15:04:05 2006"

def goUnixDate : String := "Mon Jan _2 15:04:05 MST 2006"

def goRubyDate : String := "Mon Jan 02 15:04:05 -0700 2006"

def goRFC822 : String := "02 Jan 06 15:04 MST"

def goRFC822Z : String := "02 Jan 06 15:04 -0700"

def goRFC850 : String := "Monday, 02-Jan-06 15:04:05 MST"

def goRFC1123 : String := "Mon, 02 Jan 2006 15:04:05 MST"

def goRFC1123Z : String := "Mon, 02 Jan 2006 15:04:05 -0700"

def goRFC3339 : String := "2006-01-02T15:04:05Z07:00"

def goRFC3339Nano : String := "2006-01-02T15:04:05.999999999Z07:00"

def goKitchen : String := "3:04PM"

def goStamp : String := "Jan _2 15:04:05"

def goStampMilli : String := "Jan _2 15:04:05.000"

def goStampMicro : String := "Jan _2 15:04:05.000000"

def goStampNano : String := "Jan _2 15:04:05.000000000"

/-- The first two statements of SetTime from internal/encode: substitute
the default layout for an empty tag, then run the switch substituting the
fifteen standard layout names, leaving any other format untouched. -/
def resolveTimeFmt (timeFmt : String) : String :=
  let timeFmt := if timeFmt = "" then goRFC3339 else timeFmt
  match timeFmt with
  | "ANSIC" => goANSIC
  | "UnixDate" => goUnixDate
  | "RubyDate" => goRubyDate
  | "RFC822" => goRFC822
  | "RFC822Z" => goRFC822Z
  | "RFC850" => goRFC850
  | "RFC1123" => goRFC1123
  | "RFC1123Z" => goRFC1123Z
  | "RFC3339" => goRFC3339
  | "RFC3339Nano" => goRFC3339Nano
  | "Kitchen" => goKitchen
  | "Stamp" => goStamp
  | "StampMilli" => goStampMilli
  | "StampMicro" => goStampMicro
  | "StampNano" => goStampNano
  | other => other

/-- SetTime from internal/encode: resolve the layout tag (the default
substitution and the name switch, factored into resolveTimeFmt above),
then parse; the resolved layout string is returned in both the success
and failure cases, and on success the parsed time is the new field value
(the Go code mutates the destination in place). -/
def SetTime (_value : GoValue) (tv : String) (timeFmt : String) : String × Except String GoValue :=
  let timeFmt := resolveTimeFmt timeFmt
  match goTimeParse timeFmt tv with
  | .error err => (timeFmt, .error err)
  | .ok t => (timeFmt, .ok (.timeV t))

/-! The field-setting engine of internal/encode (SetField and its
helpers isZero, isAlias, implementsUnmarshaler). -/

/-- isZero from internal/encode: for every integer and float kind the
string "0" is the zero representation, for every other kind the empty
string. -/
def isZero (t : GoKind) (s : String) : Bool :=
  match t with
  | .int | .int8 | .int16 | .int32 | .int64
  | .uint | .uint8 | .uint16 | .uint32 | .uint64
  | .float32 | .float64 => s == "0"
  | _ => s == ""

/-- isAlias from internal/encode: false for struct and pointer kinds,
otherwise whether the type's printed name contains a dot. -/
def isAlias (t : GoType) : Bool :=
  match kind t with
  | .struct => false
  | .ptr => false
  | _ => (typeString t).data.contains '.'

/-- Whether a pointer to the type implements encoding.TextUnmarshaler.
Among the modelled types only *time.Time does; SetField consults this
behind the isAlias gate (false for struct kinds) and after the time.Time
dispatch, so the unmarshal branch itself is never reached. -/
def implementsUnmarshaler : GoType → Bool
  | .time => true
  | _ => false

/-- Zero time.Time value (January 1 of year 1). -/
def zeroGoTime : GoTime := ⟨1, 1, 1, 0, 0, 0, 0, 0⟩

mutual

/-- Zero value of a type, as produced by reflect.New. -/
def zeroValue : GoType → GoValue
  | .string => .str ""
  | .bool => .boolV false
  | .int | .int8 | .int16 | .int32 | .int64 | .duration => .intV 0
  | .uint | .uint8 | .uint16 | .uint32 | .uint64 => .uintV 0
  | .float32 | .float64 => .floatV 0
  | .ptr _ => .ptrV none
  | .slice _ => .sliceV []
  | .array n et => .arrV (List.replicate n (zeroValue et))
  | .structT fs => .structV (zeroValues fs)
  | .time => .timeV zeroGoTime
  | .func | .chan | .iface | .mapT | .complex64 | .complex128 => .unsupportedV

def zeroValues : List GoType → List GoValue
  | [] => []
  | t :: ts => zeroValue t :: zeroValues ts

end

/-- Run a fallible function over every list element in order, stopping at
the first error (the shape of the element loops in SetField's slice and
array cases). -/
def collectExcept (f : α → Except String β) : List α → Except String (List β)
  | [] => .ok []
  | a :: as =>
    match f a with
    | .error e => .error e
    | .ok b =>
      match collectExcept f as with
      | .error e => .error e
      | .ok bs => .ok (b :: bs)

/-- Signed-kind bit widths, for the truncation done by reflect SetInt. -/
def intWidth : GoType → Nat
  | .int8 => 8
  | .int16 => 16
  | .int32 => 32
  | _ => 64

/-- Unsigned-kind bit widths, for the truncation done by reflect SetUint. -/
def uintWidth : GoType → Nat
  | .uint8 => 8
  | .uint16 => 16
  | .uint32 => 32
  | _ => 64

/-- The elements behind an array value (a well-typed array value is always
an arrV; the fallback keeps the function total). -/
def arrayElems (n : Nat) (et : GoType) : GoValue → List GoValue
  | .arrV xs => xs
  | _ => List.replicate n (zeroValue et)

/-- The format-tag metadata SetField reads from its reflect.StructField
argument (sField.Tag.Get(fmtTag)). -/
structure FieldMeta where
  fmt : String
deriving Repr

/-- SetField from internal/encode.  Mirrors the Go function clause by
clause: the isZero short-circuit, the alias/TextUnmarshaler gate, then
the kind switch.  The source mutates the destination reflect.Value; the
model returns the new field value (errors carry the Go error strings).
reflect.Value.SetInt and SetUint silently truncate to the destination
kind's width, modelled by wrapInt and a power-of-two modulus; the int and
uint parses use strconv bit size 0, i.e. the 64-bit platform word, not
the field's width.  On an array element error the source has already
mutated the earlier elements in place; the model returns only the error
(no claim observes a failed array write). -/
def SetField (t : GoType) (value : GoValue) (s : String) (sField : FieldMeta) : Except String GoValue :=
  if isZero (kind t) s then .ok value
  else if isAlias t && implementsUnmarshaler t then
    -- Never reached: the only modelled TextUnmarshaler type is time.Time,
    -- whose struct kind makes isAlias false.
    .ok value
  else
    match t with
    | .string => .ok (.str s)
    | .bool =>
      match goToLower s with
      | "true" => .ok (.boolV true)
      | "false" => .ok (.boolV false)
      | "" => .ok (.boolV false)
      | _ => .error ("cannot assign '" ++ s ++ "' to bool type")
    | .duration =>
      -- the source reaches this through the Int64 kind case, testing
      -- value.Type().String() == "time.Duration"
      match parseDuration s with
      | .ok d => .ok (.intV d)
      | .error err =>
        match parseInt s with
        | .ok i => .ok (.intV i)
        | .error _ => .error err
    | .int => (parseInt s).map (fun i => .intV i)
    | .int64 => (parseInt s).map (fun i => .intV i)
    | .int8 => (parseInt s).map (fun i => .intV (wrapInt 8 i))
    | .int16 => (parseInt s).map (fun i => .intV (wrapInt 16 i))
    | .int32 => (parseInt s).map (fun i => .intV (wrapInt 32 i))
    | .uint => (parseUint s).map (fun n => .uintV n)
    | .uint64 => (parseUint s).map (fun n => .uintV n)
    | .uint8 => (parseUint s).map (fun n => .uintV (n % 2 ^ 8))
    | .uint16 => (parseUint s).map (fun n => .uintV (n % 2 ^ 16))
    | .uint32 => (parseUint s).map (fun n => .uintV (n % 2 ^ 32))
    | .float32 => (parseGoFloat s).map (fun q => .floatV q)
    | .float64 => (parseGoFloat s).map (fun q => .floatV q)
    | .ptr et =>
      if isZero (kind et) s then .ok value
      else
        match SetField et (zeroValue et) s sField with
        | .error e => .error e
        | .ok z => .ok (.ptrV (some z))
    | .slice et =>
      let s1 := goTrim s ['[', ']']
      let vals := goSplitChar s1 ','
      match collectExcept
          (fun v => SetField et (zeroValue et) (goTrim (goTrimSpace v) ['"', '\'']) sField)
          vals with
      | .error e => .error e
      | .ok xs => .ok (.sliceV xs)
    | .array n et =>
      let s1 := goTrim s ['[', ']']
      let vals := goSplitChar s1 ','
      if n ≠ vals.length then
        .error ("cannot set array of different lengths got " ++ toString n ++
          " want " ++ toString vals.length)
      else
        match collectExcept
            (fun p : GoValue × String => SetField et p.1 p.2 sField)
            ((arrayElems n et value).zip vals) with
        | .error e => .error e
        | .ok xs => .ok (.arrV xs)
    | .time =>
      -- the source reaches this through the Struct kind case, testing
      -- value.Type().String() == "time.Time" and delegating to SetTime
      (SetTime value s sField.fmt).2
    | .structT fs =>
      -- Struct kind, neither time.Time nor a TextUnmarshaler: the source
      -- allocates v := reflect.New(value.Type()) and unconditionally runs
      -- value.Set(v.Elem()), writing the zero value over the field.
      .ok (.structV (zeroValues fs))
    | .func | .chan | .iface | .mapT | .complex64 | .complex128 =>
      .error ("unsupported type '" ++ kindName (kind t) ++ "'")
termination_by structural t

/-! The environment-variable decoder of internal/encode/env. -/

/-- Uppercase an ASCII letter, as the byte arithmetic in strcase. -/
def toCapB (c : Char) : Char :=
  if isLowB c then Char.ofNat (c.toNat - 32) else c

/-- Body of strcase.ToScreamingDelimited (github.com/iancoleman/strcase
v0.1.2) specialised to delimiter an underscore, no ignore byte, and
screaming output, walking the bytes with the previous original character
at hand.  A delimiter is inserted at every case-class change, keeping
acronym runs together. -/
def screamAux : Option Char → List Char → List Char
  | _, [] => []
  | prev?, c :: rest =>
    let v := toCapB c
    let emit :=
      match rest with
      | [] => none
      | next :: _ =>
        if (isCapB c && isLowB next) || (isLowB c && (isCapB next || isNumB next)) ||
            (isNumB c && (isCapB next || isLowB next)) then
          let lead :=
            if isCapB c && isLowB next then
              match prev? with
              | some p => if isCapB p then ['_'] else []
              | none => []
            else []
          let trail :=
            match rest with
            | next :: _ => if isLowB c || isNumB c || isNumB next then ['_'] else []
            | [] => []
          some (lead ++ [v] ++ trail)
        else none
    match emit with
    | some out => out ++ screamAux (some c) rest
    | none =>
      (if c = ' ' || c = '_' || c = '-' then ['_'] else [v]) ++ screamAux (some c) rest

/-- strcase.ToScreamingSnake, as called by the env decoder to derive an
environment-variable name from a field name. -/
def toScreamingSnake (s : String) : String :=
  String.mk (screamAux none (goTrimSpace s).data)

/-- One struct field as the env decoder sees it through reflection: the
declared name, whether it is exported (CanSet), the values of the config,
env and format struct tags (empty string when absent), the declared type
and the current value. -/
structure GoField where
  name : String
  exported : Bool
  configTag : String
  envTag : String
  fmtTag : String
  ftype : GoType
  fvalue : GoValue
deriving Repr

/-- populate from internal/encode/env, the per-field loop over a struct
(the Go function first checks its argument is a non-nil struct pointer;
the model starts from the dereferenced field list).  For each field:
skip unexported fields and fields tagged config:"ignore" or env:"-";
derive the name from the env tag ("omitprefix" clears it, an empty tag
converts the field name to screaming snake case, anything else is used
verbatim) and prepend the prefix; skip func, chan, complex, interface and
map kinds entirely; otherwise reject "omitprefix", look the name up in
the environment, skip empty values, and hand non-empty values to
SetField, wrapping its error.  Note the switch on the field kind has no
struct or pointer recursion case: every remaining kind, struct included,
falls to the default branch. -/
def populate (getenv : String → String) (pfx : String) : List GoField → Except String (List GoField)
  | [] => .ok []
  | f :: fs =>
    let keep := (populate getenv pfx fs).map (f :: ·)
    if !f.exported then keep
    else if f.configTag == "ignore" then keep
    else if f.envTag == "-" then keep
    else
      let name :=
        if f.envTag == "omitprefix" then ""
        else if f.envTag == "" then toScreamingSnake f.name
        else f.envTag
      let name :=
        if pfx ≠ "" then (if name = "" then pfx else pfx ++ "_" ++ name) else name
      match kind f.ftype with
      | .func | .chan | .complex64 | .complex128 | .iface | .map => keep
      | _ =>
        if f.envTag == "omitprefix" then
          .error "'omitprefix' cannot be used on non-struct field types"
        else
          let envVal := getenv name
          if envVal == "" then keep
          else
            match SetField f.ftype f.fvalue envVal ⟨f.fmtTag⟩ with
            | .error _ =>
              .error ("'" ++ envVal ++ "' from '" ++ name ++ "' cannot be set to " ++
                f.name ++ " (" ++ typeString f.ftype ++ ")")
            | .ok v' => (populate getenv pfx fs).map ({ f with fvalue := v' } :: ·)

/-- Modelled from the spec: the merge orchestrator (goConfig.Load and its
options bitmask) is not under src/ — only its tests are — so the stage
sequence is taken from spec sections 4.3 and 4.4: with all three sources
enabled, the adapters run in the fixed order environment, then file, then
flags, each mutating the same record in place and each satisfying the
same recursive-walk contract as the environment adapter, so each stage is
the walk applied with that source's lookup function; the first error
aborts the sequence. -/
def LoadModel (env file flags : String → String) (rec : List GoField) : Except String (List GoField) :=
  match populate env "" rec with
  | .error e => .error e
  | .ok r1 =>
    match populate file "" r1 with
    | .error e => .error e
    | .ok r2 => populate flags "" r2

/-! Claim-side definitions: these follow the wording of the spec, to be
compared with the source-shaped definitions above. -/

/-- The numeric kinds in the sense of the spec's zero-representation rule. -/
def numericKind : GoKind → Bool
  | .int | .int8 | .int16 | .int32 | .int64
  | .uint | .uint8 | .uint16 | .uint32 | .uint64
  | .float32 | .float64 => true
  | _ => false

/-- The conventional zero-representation string of a kind as the spec
words it: "0" for every numeric kind, the empty string for every other
kind. -/
def zeroRepr (k : GoKind) : String :=
  if numericKind k then "0" else ""

/-! Theorems settling the claims. -/

/-- C1: the isZero test agrees with the spec's conventional zero
representation on every kind, and for every field type and every prior
value SetField applied to the zero-representation string of the field's
kind succeeds and returns the prior value unchanged.  The short-circuit
fires before any type dispatch: the statement holds even for the types
whose dispatch arm is an error (func, chan, interface, map, complex). -/
theorem c1_zero_shortcircuit :
    (∀ (k : GoKind) (s : String), isZero k s = true ↔ s = zeroRepr k) ∧
    (∀ (t : GoType) (v : GoValue) (m : FieldMeta),
      SetField t v (zeroRepr (kind t)) m = .ok v) := by
  constructor
  · intro k s
    cases k <;> simp [isZero, zeroRepr, numericKind]
  · intro t v m
    cases t <;> rfl

/-- C2 (code-bug witness): a plain struct field, neither time.Time nor a
TextUnmarshaler, is not left unmodified by SetField on a non-empty
string; the source's unconditional value.Set(v.Elem()) writes the zero
value of the struct type over the field, here turning a struct holding
the int 5 into one holding 0. -/
theorem c2_plain_struct_overwritten :
    SetField (GoType.structT [GoType.int]) (GoValue.structV [GoValue.intV 5]) "x" ⟨""⟩ =
      Except.ok (GoValue.structV [GoValue.intV 0]) ∧
    GoValue.structV [GoValue.intV 0] ≠ GoValue.structV [GoValue.intV 5] := by
  refine ⟨rfl, ?_⟩
  simp

/-- C5 counterexample: "300" does not fit the 8-bit field, yet SetField
succeeds and stores 44, the value truncated modulo 2^8, instead of
reporting a parse failure. -/
theorem c5_int8_truncation_counterexample :
    SetField GoType.int8 (GoValue.intV 0) "300" ⟨""⟩ = Except.ok (GoValue.intV 44) := rfl

/-- Any integer accepted by parseInt lies in the signed 64-bit range. -/
theorem parseInt_range {s : String} {i : Int} (h : parseInt s = .ok i) :
    -(2 ^ 63) ≤ i ∧ i ≤ 2 ^ 63 - 1 := by
  unfold parseInt at h
  repeat' split at h
  all_goals
    first
    | exact Except.noConfusion h
    | (dsimp only at h
       split at h
       · exact Except.noConfusion h
       · rename_i hc
         simp only [Bool.or_eq_true, decide_eq_true_eq, not_or, not_lt] at hc
         simp only [Except.ok.injEq] at h
         omega)

/-- Any natural accepted by parseUint lies in the unsigned 64-bit range. -/
theorem parseUint_range {s : String} {n : Nat} (h : parseUint s = .ok n) :
    n ≤ 2 ^ 64 - 1 := by
  unfold parseUint at h
  repeat' split at h
  all_goals
    first
    | exact Except.noConfusion h
    | (rename_i hc
       simp only [not_lt] at hc
       simp only [Except.ok.injEq] at h
       omega)

/-- Wraparound to 64 bits is the identity on the signed 64-bit range. -/
theorem wrapInt64_id {i : Int} (h1 : -(2 ^ 63) ≤ i) (h2 : i ≤ 2 ^ 63 - 1) :
    wrapInt 64 i = i := by
  unfold wrapInt
  norm_num
  rw [Int.emod_eq_of_lt (by omega) (by omega)]
  omega

/-- SetField on an int field, past the zero short-circuit, is the base-10
64-bit parse followed by a direct store. -/
theorem setField_int_eq (v : GoValue) (s : String) (m : FieldMeta)
    (hz : (s == "0") = false) :
    SetField GoType.int v s m = (parseInt s).map (fun i => .intV i) := by
  simp [SetField, isZero, kind, isAlias, implementsUnmarshaler, typeString, hz]

/-- SetField on an int64 field, past the zero short-circuit. -/
theorem setField_int64_eq (v : GoValue) (s : String) (m : FieldMeta)
    (hz : (s == "0") = false) :
    SetField GoType.int64 v s m = (parseInt s).map (fun i => .intV i) := by
  simp [SetField, isZero, kind, isAlias, implementsUnmarshaler, typeString, hz]

/-- SetField on an int8 field truncates the parsed 64-bit value to 8 bits. -/
theorem setField_int8_eq (v : GoValue) (s : String) (m : FieldMeta)
    (hz : (s == "0") = false) :
    SetField GoType.int8 v s m = (parseInt s).map (fun i => .intV (wrapInt 8 i)) := by
  simp [SetField, isZero, kind, isAlias, implementsUnmarshaler, typeString, hz]

/-- SetField on an int16 field truncates the parsed 64-bit value to 16 bits. -/
theorem setField_int16_eq (v : GoValue) (s : String) (m : FieldMeta)
    (hz : (s == "0") = false) :
    SetField GoType.int16 v s m = (parseInt s).map (fun i => .intV (wrapInt 16 i)) := by
  simp [SetField, isZero, kind, isAlias, implementsUnmarshaler, typeString, hz]

/-- SetField on an int32 field truncates the parsed 64-bit value to 32 bits. -/
theorem setField_int32_eq (v : GoValue) (s : String) (m : FieldMeta)
    (hz : (s == "0") = false) :
    SetField GoType.int32 v s m = (parseInt s).map (fun i => .intV (wrapInt 32 i)) := by
  simp [SetField, isZero, kind, isAlias, implementsUnmarshaler, typeString, hz]

/-- SetField on a uint field, past the zero short-circuit. -/
theorem setField_uint_eq (v : GoValue) (s : String) (m : FieldMeta)
    (hz : (s == "0") = false) :
    SetField GoType.uint v s m = (parseUint s).map (fun n => .uintV n) := by
  simp [SetField, isZero, kind, isAlias, implementsUnmarshaler, typeString, hz]

/-- SetField on a uint64 field, past the zero short-circuit. -/
theorem setField_uint64_eq (v : GoValue) (s : String) (m : FieldMeta)
    (hz : (s == "0") = false) :
    SetField GoType.uint64 v s m = (parseUint s).map (fun n => .uintV n) := by
  simp [SetField, isZero, kind, isAlias, implementsUnmarshaler, typeString, hz]

/-- SetField on a uint8 field truncates the parsed value modulo 2^8. -/
theorem setField_uint8_eq (v : GoValue) (s : String) (m : FieldMeta)
    (hz : (s == "0") = false) :
    SetField GoType.uint8 v s m = (parseUint s).map (fun n => .uintV (n % 2 ^ 8)) := by
  simp [SetField, isZero, kind, isAlias, implementsUnmarshaler, typeString, hz]

/-- SetField on a uint16 field truncates the parsed value modulo 2^16. -/
theorem setField_uint16_eq (v : GoValue) (s : String) (m : FieldMeta)
    (hz : (s == "0") = false) :
    SetField GoType.uint16 v s m = (parseUint s).map (fun n => .uintV (n % 2 ^ 16)) := by
  simp [SetField, isZero, kind, isAlias, implementsUnmarshaler, typeString, hz]

/-- SetField on a uint32 field truncates the parsed value modulo 2^32. -/
theorem setField_uint32_eq (v : GoValue) (s : String) (m : FieldMeta)
    (hz : (s == "0") = false) :
    SetField GoType.uint32 v s m = (parseUint s).map (fun n => .uintV (n % 2 ^ 32)) := by
  simp [SetField, isZero, kind, isAlias, implementsUnmarshaler, typeString, hz]

/-- C5 amended: for every signed or unsigned integer field other than the
duration special case, SetField parses the string in base 10 against the
64-bit platform word (strconv bit size 0), not the field's declared
width; a parse failure (syntax, or out of the 64-bit range) propagates
as the error, and an accepted value is stored truncated two's-complement
to the field's width (the width-64 kinds store it unchanged), never
rejected for exceeding the field's width. -/
theorem c5_int_parse_width_amended :
    (∀ t, (t = GoType.int ∨ t = GoType.int8 ∨ t = GoType.int16 ∨
           t = GoType.int32 ∨ t = GoType.int64) →
      ∀ (v : GoValue) (s : String) (m : FieldMeta), s ≠ "0" →
        (∀ i, parseInt s = .ok i →
          SetField t v s m = .ok (.intV (wrapInt (intWidth t) i))) ∧
        (∀ e, parseInt s = .error e → SetField t v s m = .error e)) ∧
    (∀ t, (t = GoType.uint ∨ t = GoType.uint8 ∨ t = GoType.uint16 ∨
           t = GoType.uint32 ∨ t = GoType.uint64) →
      ∀ (v : GoValue) (s : String) (m : FieldMeta), s ≠ "0" →
        (∀ n, parseUint s = .ok n →
          SetField t v s m = .ok (.uintV (n % 2 ^ uintWidth t))) ∧
        (∀ e, parseUint s = .error e → SetField t v s m = .error e)) := by
  constructor
  · intro t ht v s m hs
    have hz : ((s == "0") = false) := beq_eq_false_iff_ne.mpr hs
    rcases ht with h | h | h | h | h
    · subst h
      refine ⟨fun i hi => ?_, fun e he => ?_⟩
      · rw [setField_int_eq v s m hz, hi]
        show Except.ok (GoValue.intV i) = .ok (.intV (wrapInt 64 i))
        rw [wrapInt64_id (parseInt_range hi).1 (parseInt_range hi).2]
      · rw [setField_int_eq v s m hz, he]; rfl
    · subst h
      refine ⟨fun i hi => ?_, fun e he => ?_⟩
      · rw [setField_int8_eq v s m hz, hi]; rfl
      · rw [setField_int8_eq v s m hz, he]; rfl
    · subst h
      refine ⟨fun i hi => ?_, fun e he => ?_⟩
      · rw [setField_int16_eq v s m hz, hi]; rfl
      · rw [setField_int16_eq v s m hz, he]; rfl
    · subst h
      refine ⟨fun i hi => ?_, fun e he => ?_⟩
      · rw [setField_int32_eq v s m hz, hi]; rfl
      · rw [setField_int32_eq v s m hz, he]; rfl
    · subst h
      refine ⟨fun i hi => ?_, fun e he => ?_⟩
      · rw [setField_int64_eq v s m hz, hi]
        show Except.ok (GoValue.intV i) = .ok (.intV (wrapInt 64 i))
        rw [wrapInt64_id (parseInt_range hi).1 (parseInt_range hi).2]
      · rw [setField_int64_eq v s m hz, he]; rfl
  · intro t ht v s m hs
    have hz : ((s == "0") = false) := beq_eq_false_iff_ne.mpr hs
    rcases ht with h | h | h | h | h
    · subst h
      refine ⟨fun n hn => ?_, fun e he => ?_⟩
      · rw [setField_uint_eq v s m hz, hn]
        show Except.ok (GoValue.uintV n) = .ok (.uintV (n % 2 ^ 64))
        rw [Nat.mod_eq_of_lt (by have := parseUint_range hn; omega)]
      · rw [setField_uint_eq v s m hz, he]; rfl
    · subst h
      refine ⟨fun n hn => ?_, fun e he => ?_⟩
      · rw [setField_uint8_eq v s m hz, hn]; rfl
      · rw [setField_uint8_eq v s m hz, he]; rfl
    · subst h
      refine ⟨fun n hn => ?_, fun e he => ?_⟩
      · rw [setField_uint16_eq v s m hz, hn]; rfl
      · rw [setField_uint16_eq v s m hz, he]; rfl
    · subst h
      refine ⟨fun n hn => ?_, fun e he => ?_⟩
      · rw [setField_uint32_eq v s m hz, hn]; rfl
      · rw [setField_uint32_eq v s m hz, he]; rfl
    · subst h
      refine ⟨fun n hn => ?_, fun e he => ?_⟩
      · rw [setField_uint64_eq v s m hz, hn]
        show Except.ok (GoValue.uintV n) = .ok (.uintV (n % 2 ^ 64))
        rw [Nat.mod_eq_of_lt (by have := parseUint_range hn; omega)]
      · rw [setField_uint64_eq v s m hz, he]; rfl

/-- C5 amended, applied at the counterexample input: an 8-bit field given
"300" takes the truncated value. -/
theorem c5_int_parse_width_amended_witness :
    SetField GoType.int8 (GoValue.intV 0) "300" ⟨""⟩ = .ok (.intV (wrapInt 8 300)) :=
  ((c5_int_parse_width_amended.1 GoType.int8 (Or.inr (Or.inl rfl)) (GoValue.intV 0)
    "300" ⟨""⟩ (by decide)).1) 300 rfl

/-- C6 counterexample: a boolean field whose prior value is true, set
from the empty string, stays true: the claim's "ends up false regardless
of its prior value" fails. -/
theorem c6_bool_empty_counterexample :
    SetField GoType.bool (GoValue.boolV true) "" ⟨""⟩ = Except.ok (GoValue.boolV true) ∧
    SetField GoType.bool (GoValue.boolV true) "" ⟨""⟩ ≠ Except.ok (GoValue.boolV false) := by
  refine ⟨rfl, ?_⟩
  intro h
  rw [show SetField GoType.bool (GoValue.boolV true) "" ⟨""⟩ =
      Except.ok (GoValue.boolV true) from rfl] at h
  simp at h

/-- C6 amended: "True" stores true and "false" stores false
(case-insensitively), "yes" is the ambiguous-boolean type error, but the
empty string is consumed by the zero-value short-circuit before the
boolean dispatch and leaves the field at its prior value (the
case "false", "" arm of the switch is unreachable for ""). -/
theorem c6_bool_literals_amended (v : GoValue) (m : FieldMeta) :
    SetField GoType.bool v "True" m = .ok (.boolV true) ∧
    SetField GoType.bool v "false" m = .ok (.boolV false) ∧
    SetField GoType.bool v "" m = .ok v ∧
    SetField GoType.bool v "yes" m = .error "cannot assign 'yes' to bool type" :=
  ⟨rfl, rfl, rfl, rfl⟩

/-- C7: a duration field given "12s" stores 12 seconds in nanoseconds;
given "12", duration parsing fails with the missing-unit error and the
fallback stores 12 as a plain count of nanoseconds, the base unit; given
"abc", both parses fail and the duration parse error surfaces. -/
theorem c7_duration_fallback (v : GoValue) (m : FieldMeta) :
    SetField GoType.duration v "12s" m = .ok (.intV 12000000000) ∧
    SetField GoType.duration v "12" m = .ok (.intV 12) ∧
    parseDuration "12" = .error "time: missing unit in duration \"12\"" ∧
    SetField GoType.duration v "abc" m = .error "time: invalid duration \"abc\"" :=
  ⟨rfl, rfl, rfl, rfl⟩

/-- Splitting on a separator always yields at least one token, whatever
the accumulator. -/
theorem splitOnCharAux_length (sep : Char) (cs : List Char) :
    ∀ acc, 1 ≤ (splitOnCharAux sep cs acc).length := by
  induction cs with
  | nil => intro acc; simp [splitOnCharAux]
  | cons c cs ih =>
    intro acc
    by_cases h : c = sep
    · simp [splitOnCharAux, h]
    · simpa [splitOnCharAux, h] using ih (acc.push c)

/-- A successful collectExcept returns one output per input token. -/
theorem collectExcept_ok_length {f : α → Except String β} :
    ∀ {xs : List α} {ys : List β}, collectExcept f xs = .ok ys → ys.length = xs.length := by
  intro xs
  induction xs with
  | nil => intro ys h; simp [collectExcept] at h; simp [← h]
  | cons a as ih =>
    intro ys h
    simp only [collectExcept] at h
    cases hfa : f a with
    | error e => rw [hfa] at h; exact Except.noConfusion h
    | ok b =>
      rw [hfa] at h
      cases hrest : collectExcept f as with
      | error e => rw [hrest] at h; exact Except.noConfusion h
      | ok bs =>
        rw [hrest] at h
        simp only [Except.ok.injEq] at h
        subst h
        simp [ih hrest]

/-- C10: on a slice field, any input other than the empty string (the
zero short-circuit) either fails or assigns a slice of at least one
element, because the comma split always produces at least one token; in
particular the literal "[]" on a slice-of-string field succeeds with a
one-element slice holding the empty string, not an empty slice. -/
theorem c10_slice_never_empty (et : GoType) (v : GoValue) (s : String) (m : FieldMeta)
    (hs : s ≠ "") :
    (∀ r, SetField (GoType.slice et) v s m = .ok r →
      ∃ xs, r = GoValue.sliceV xs ∧ 1 ≤ xs.length) ∧
    SetField (GoType.slice GoType.string) v "[]" m = .ok (.sliceV [.str ""]) := by
  constructor
  · intro r h
    have hz : ((s == "") = false) := beq_eq_false_iff_ne.mpr hs
    simp only [SetField, isZero, kind, implementsUnmarshaler, Bool.and_false,
      Bool.false_eq_true, if_false, hz] at h
    set vals := goSplitChar (goTrim s ['[', ']']) ',' with hvals
    cases hc : collectExcept
        (fun v => SetField et (zeroValue et) (goTrim (goTrimSpace v) ['"', '\'']) m)
        vals with
    | error e => rw [hc] at h; exact Except.noConfusion h
    | ok xs =>
      rw [hc] at h
      simp only [Except.ok.injEq] at h
      refine ⟨xs, h.symm, ?_⟩
      rw [collectExcept_ok_length hc, hvals]
      exact splitOnCharAux_length ',' (goTrim s ['[', ']']).data ""
  · rfl

/-- C10, applied at the bracket literal: "[]" is not the empty string,
and on a slice of strings it produces the one-element slice holding "". -/
theorem c10_slice_never_empty_witness :
    ("[]" : String) ≠ "" ∧
    SetField (GoType.slice GoType.string) (GoValue.sliceV []) "[]" ⟨""⟩ =
      .ok (.sliceV [.str ""]) :=
  ⟨by decide, (c10_slice_never_empty GoType.string (GoValue.sliceV []) "[]" ⟨""⟩
    (by decide)).2⟩

/-- Layout resolution as the spec words it: an empty tag resolves to the
default RFC3339 layout; each of the fifteen symbolic names resolves to
its fixed concrete pattern; any other non-empty tag is used verbatim. -/
def resolveLayoutSpec (tag : String) : String :=
  if tag = "" then goRFC3339
  else if tag = "ANSIC" then goANSIC
  else if tag = "UnixDate" then goUnixDate
  else if tag = "RubyDate" then goRubyDate
  else if tag = "RFC822" then goRFC822
  else if tag = "RFC822Z" then goRFC822Z
  else if tag = "RFC850" then goRFC850
  else if tag = "RFC1123" then goRFC1123
  else if tag = "RFC1123Z" then goRFC1123Z
  else if tag = "RFC3339" then goRFC3339
  else if tag = "RFC3339Nano" then goRFC3339Nano
  else if tag = "Kitchen" then goKitchen
  else if tag = "Stamp" then goStamp
  else if tag = "StampMilli" then goStampMilli
  else if tag = "StampMicro" then goStampMicro
  else if tag = "StampNano" then goStampNano
  else tag

/-- The source's layout resolution agrees with the spec's description on
every tag. -/
theorem resolveTimeFmt_eq_spec (tag : String) : resolveTimeFmt tag = resolveLayoutSpec tag := by
  by_cases h0 : tag = ""
  · subst h0; rfl
  · by_cases h1 : tag = "ANSIC"
    · subst h1; rfl
    · by_cases h2 : tag = "UnixDate"
      · subst h2; rfl
      · by_cases h3 : tag = "RubyDate"
        · subst h3; rfl
        · by_cases h4 : tag = "RFC822"
          · subst h4; rfl
          · by_cases h5 : tag = "RFC822Z"
            · subst h5; rfl
            · by_cases h6 : tag = "RFC850"
              · subst h6; rfl
              · by_cases h7 : tag = "RFC1123"
                · subst h7; rfl
                · by_cases h8 : tag = "RFC1123Z"
                  · subst h8; rfl
                  · by_cases h9 : tag = "RFC3339"
                    · subst h9; rfl
                    · by_cases h10 : tag = "RFC3339Nano"
                      · subst h10; rfl
                      · by_cases h11 : tag = "Kitchen"
                        · subst h11; rfl
                        · by_cases h12 : tag = "Stamp"
                          · subst h12; rfl
                          · by_cases h13 : tag = "StampMilli"
                            · subst h13; rfl
                            · by_cases h14 : tag = "StampMicro"
                              · subst h14; rfl
                              · by_cases h15 : tag = "StampNano"
                                · subst h15; rfl
                                · simp [resolveTimeFmt, resolveLayoutSpec, h0, h1,
                                    h2, h3, h4, h5, h6, h7, h8, h9, h10, h11, h12,
                                    h13, h14, h15]

/-- C9: SetTime resolves its layout tag exactly as the spec describes
(empty tag to the RFC3339 default, the fifteen symbolic names to their
fixed patterns, anything else verbatim), returns the resolved layout in
both outcomes, and on parse success stores the parsed timestamp while on
failure it passes the parse error through alongside the resolved layout. -/
theorem c9_settime_layout_resolution (v : GoValue) (tv tag : String) :
    SetTime v tv tag =
      (resolveLayoutSpec tag,
        match goTimeParse (resolveLayoutSpec tag) tv with
        | .error e => .error e
        | .ok t => .ok (GoValue.timeV t)) := by
  simp only [SetTime]
  rw [resolveTimeFmt_eq_spec tag]
  cases hp : goTimeParse (resolveLayoutSpec tag) tv with
  | error e => simp [hp]
  | ok t => simp [hp]

/-! Concrete records for the claims about the environment walk and the
merge order. -/

/-- Environment holding only the composed name CHILD_HOST. -/
def envChildHost : String → String :=
  fun n => if n = "CHILD_HOST" then "9" else ""

/-- Empty environment. -/
def envNone : String → String := fun _ => ""

/-- A record with one nested struct field named Child whose struct
contains a single string leaf. -/
def recNested : List GoField :=
  [⟨"Child", true, "", "", "", .structT [.string], .structV [.str ""]⟩]

/-- C3 (code-bug witness): the environment walk does not recurse into
nested struct fields.  With CHILD_HOST set, the walk looks up only the
parent's own name CHILD (empty here), skips the field, and returns the
record unchanged: the leaf under the composed name CHILD_HOST is never
populated, although the function's own comments promise recursion with
prefix composition. -/
theorem c3_env_walk_never_recurses :
    populate envChildHost "" recNested = .ok recNested := rfl

/-- A struct-typed field carrying the prefix-passthrough env tag. -/
def recOmitTagStruct : List GoField :=
  [⟨"Child", true, "", "omitprefix", "", .structT [.string], .structV [.str ""]⟩]

/-- A func-typed field carrying the prefix-passthrough env tag. -/
def recOmitTagFunc : List GoField :=
  [⟨"F", true, "", "omitprefix", "", .func, .unsupportedV⟩]

/-- C8 (code-bug witness): in the walk as written, a struct-typed field
tagged omitprefix falls into the default branch of the kind switch and is
rejected with the non-struct-field error, while a func-typed field tagged
omitprefix is skipped by the explicit ignore list before the validation
and raises no error — the opposite of the claimed "error if and only if
non-struct" behavior in both directions. -/
theorem c8_omitprefix_validation_misfires :
    populate envNone "" recOmitTagStruct =
      .error "'omitprefix' cannot be used on non-struct field types" ∧
    populate envNone "" recOmitTagFunc = .ok recOmitTagFunc :=
  ⟨rfl, rfl⟩

/-- Environment source of the merge scenario: VALUE is 8. -/
def envSourceC4 : String → String :=
  fun n => if n = "VALUE" then "8" else ""

/-- File source of the merge scenario: the field Value receives 10. -/
def fileSourceC4 : String → String :=
  fun n => if n = "VALUE" then "10" else ""

/-- Flag source that does not mention the field. -/
def flagAbsentC4 : String → String := fun _ => ""

/-- Flag source supplying 99 for the field. -/
def flagSourceC4 : String → String :=
  fun n => if n = "VALUE" then "99" else ""

/-- The merge-scenario record: one int field Value with default 1. -/
def recValueC4 : List GoField :=
  [⟨"Value", true, "", "", "", .int, .intV 1⟩]

/-- C4: with all three sources enabled and applied in the fixed order
environment, file, flags, a field defaulting to 1 with environment value
8 and file value 10 ends at 10 when the flags do not mention it (file
overrides env, the absent flag leaves the file's value), and at 99 when
the flags additionally supply 99. -/
theorem c4_merge_order :
    LoadModel envSourceC4 fileSourceC4 flagAbsentC4 recValueC4 =
      .ok [⟨"Value", true, "", "", "", .int, .intV 10⟩] ∧
    LoadModel envSourceC4 fileSourceC4 flagSourceC4 recValueC4 =
      .ok [⟨"Value", true, "", "", "", .int, .intV 99⟩] :=
  ⟨rfl, rfl⟩

end GoConfig
